import Mathlib

/-!
Verification of the fitness-tracker backend (`src/server.js`).

The server is embedded shallowly:

* JSON leaf values are modelled by `JVal`; a JS object (a request body, a
  stored workout record, or a user's `profile` sub-record) is an association
  list `JObj` whose lookup takes the first binding, matching JS property
  access on objects with unique keys (objects produced by `JSON.parse` and by
  the handlers themselves).
* Users are created only by `/api/register`, which always builds the same
  fixed field set, so stored users are the structure `User`; its mutable
  `profile` sub-record stays a `JObj` because `/api/profile` merges arbitrary
  client fields into it.  Workout records are kept as raw `JObj`s because
  `PUT /api/workouts/:id` shallowly merges an arbitrary body over them.
* ISO-8601 timestamps are order-isomorphic to their epoch values, so dates,
  `Date.now()` and `new Date(x)` are modelled as integers; each handler that
  reads the clock takes the current instant `now : Int` as an argument.
* Numbers are modelled as `Int` (every numeric value appearing in the
  verified behaviours is integral); `NaN` is represented by `none` in the
  `Option Int` result of the `Number(·)` coercion.
* `bcryptjs` is an external dependency; it is modelled extensionally from the
  spec's contract for the credential hasher (a salted one-way hash):
  verification succeeds exactly when the candidate plaintext equals the
  hashed plaintext, and the random salt is an explicit argument.
* A mutating handler returns `Except HttpError (Db × α)`: `ok` carries the
  database that `writeDb` persisted together with the JSON response body,
  `error` means the handler returned before `writeDb`, leaving the store
  untouched (made explicit by `stateAfter`).
-/

/-- A JSON leaf value as used by the API.  No endpoint's verified behaviour
inspects nested objects or arrays inside request bodies, so those are not
represented. -/
inductive JVal where
  | null
  | bool (b : Bool)
  | num (n : Int)
  | str (s : String)
deriving DecidableEq, Repr

/-- A JS object: an association list of fields.  Objects coming from
`JSON.parse` and objects built by the server have unique keys; lookup takes
the first binding, matching JS property access. -/
abbrev JObj : Type := List (String × JVal)

/-- JS `String.prototype.trim()`: drop leading and trailing whitespace.
(The whitespace class is ASCII whitespace, which coincides with the JS
class on every string these behaviours involve.) -/
def jsTrim (s : String) : String :=
  ⟨((s.data.dropWhile Char.isWhitespace).reverse.dropWhile
      Char.isWhitespace).reverse⟩

/-- JS `String.prototype.toLowerCase()` on ASCII strings: lowercase each
character. -/
def jsToLower (s : String) : String :=
  ⟨s.data.map Char.toLower⟩

/-- JS property access `o.k`: `some v` for a present field, `none` for
`undefined`. -/
def jsLookup (o : JObj) (k : String) : Option JVal :=
  match o.find? (fun kv => kv.1 == k) with
  | some kv => some kv.2
  | none => none

/-- JS truthiness of a value. -/
def truthy : JVal → Bool
  | .null => false
  | .bool b => b
  | .num n => n != 0
  | .str s => s != ""

/-- JS truthiness of a possibly-absent field (`undefined` is falsy). -/
def truthyOpt : Option JVal → Bool
  | some v => truthy v
  | none => false

/-- The JS `Number(·)` coercion on a defined value; `none` is `NaN`.
String conversion covers trimmed decimal integer strings (every numeric
string the verified behaviours involve). -/
def jsToNumber : JVal → Option Int
  | .null => some 0
  | .bool b => some (if b then 1 else 0)
  | .num n => some n
  | .str s => if jsTrim s = "" then some 0 else (jsTrim s).toInt?

/-- `Number(·)` applied to a possibly-absent field: `Number(undefined)` is
`NaN`. -/
def jsToNumberOpt : Option JVal → Option Int
  | some v => jsToNumber v
  | none => none

/-- The JS test `Number(v) < 0` (false when `Number(v)` is `NaN`). -/
def numberNeg (o : Option JVal) : Bool :=
  match jsToNumberOpt o with
  | some n => decide (n < 0)
  | none => false

/-- The JS default `Number(v) || 0`: `0` when `Number(v)` is `NaN` or `0`,
the number otherwise; this equals `(jsToNumberOpt o).getD 0`. -/
def numberOrZero (o : Option JVal) : Int :=
  (jsToNumberOpt o).getD 0

/-- The JS object spread `{...a, ...b}`: `a`'s fields in order with `b`'s
values overriding shared keys, then `b`'s new fields in order. -/
def spread2 (a b : JObj) : JObj :=
  (a.map (fun kv => (kv.1, ((jsLookup b kv.1).getD kv.2)))) ++
    (b.filter (fun kv => (jsLookup a kv.1).isNone))

/-- JS property assignment `o.k = v`: overwrite in place when the key exists,
append otherwise. -/
def jsSet (o : JObj) (k : String) (v : JVal) : JObj :=
  if (jsLookup o k).isSome then
    o.map (fun kv => if kv.1 = k then (k, v) else kv)
  else
    o ++ [(k, v)]

/-- The statement `if (o.k) o.k = o.k.trim();`: a truthy string field is
trimmed in place, a truthy non-string makes `.trim()` throw a `TypeError`
(`none`), a falsy or absent field is left alone. -/
def jsTrimAssign (o : JObj) (k : String) : Option JObj :=
  match jsLookup o k with
  | some v =>
    if truthy v then
      match v with
      | .str s => some (jsSet o k (.str (jsTrim s)))
      | _ => none
    else some o
  | none => some o

/-- Modelled from the spec: the credential hasher wrapped by the server is
the external `bcryptjs` library (not part of this repository); a hash is
modelled extensionally as the pair of its salt and the hashed plaintext. -/
structure BHash where
  salt : Int
  text : String
deriving DecidableEq, Repr, Inhabited

/-- Modelled from the spec: `bcrypt.hash(password, salt)` — a salted one-way
hash of the plaintext. -/
def bcryptHash (salt : Int) (password : String) : BHash :=
  ⟨salt, password⟩

/-- Modelled from the spec: `bcrypt.compare(candidate, hash)` succeeds
exactly when the candidate equals the hashed plaintext (an ideal
collision-free hash). -/
def bcryptCompare (candidate : String) (h : BHash) : Bool :=
  h.text == candidate

/-- A stored user record.  Only `/api/register` creates users, always with
this exact field set; `joinedDate` is the epoch value of the creation
timestamp. -/
structure User where
  id : Int
  username : String
  password : BHash
  fullName : String
  joinedDate : Int
  profile : JObj
deriving DecidableEq, Repr, Inhabited

/-- A user as returned to clients: `const { password: _, ...userSafe }`
removes the password binding, so the response type has no password field. -/
structure SafeUser where
  id : Int
  username : String
  fullName : String
  joinedDate : Int
  profile : JObj
deriving DecidableEq, Repr

/-- `const { password: _, ...userSafe } = user`. -/
def stripUser (u : User) : SafeUser :=
  ⟨u.id, u.username, u.fullName, u.joinedDate, u.profile⟩

/-- The persisted document: `{ users: [...], workouts: [...] }`. -/
structure Db where
  users : List User
  workouts : List JObj
deriving DecidableEq, Repr

/-- An error response `res.status(s).json({ error: m })`. -/
structure HttpError where
  status : Nat
  message : String
deriving DecidableEq, Repr

def errMissingUserPass : HttpError := ⟨400, "Missing username or password"⟩
def errInvalidDomain : HttpError :=
  ⟨400, "Registration is restricted to @gmail.com addresses only."⟩
def errWeakPassword : HttpError :=
  ⟨400, "Password must be at least 8 characters long."⟩
def errDuplicate : HttpError := ⟨409, "Account already exists."⟩
def errMissingCredentials : HttpError := ⟨400, "Missing credentials"⟩
def errInvalidCredentials : HttpError := ⟨401, "Invalid credentials"⟩
def errMissingFields : HttpError := ⟨400, "Missing required fields"⟩
def errNegativeValues : HttpError :=
  ⟨400, "Duration and calories cannot be negative"⟩
def errUserIdNotFound : HttpError := ⟨404, "User ID not found"⟩
def errWorkoutNotFound : HttpError := ⟨404, "Workout not found"⟩
def errNotFound : HttpError := ⟨404, "Not found"⟩
def errUserNotFound : HttpError := ⟨404, "User not found"⟩
/-- A thrown `TypeError` surfaces through the catch block as a 500 response
carrying the exception message (abstracted here). -/
def errTypeError : HttpError := ⟨500, "trim is not a function"⟩

/-- The store visible after a mutating handler ran: the written document on
success, the untouched one when the handler returned an error before
`writeDb`. -/
def stateAfter (db : Db) (r : Except HttpError (Db × α)) : Db :=
  match r with
  | .ok (db', _) => db'
  | .error _ => db

/-- `[a-z0-9]` of the address pattern. -/
def isAlnumLower (c : Char) : Bool :=
  (decide ('a' ≤ c) && decide (c ≤ 'z')) || (decide ('0' ≤ c) && decide (c ≤ '9'))

/-- Matches `((\.?[a-z0-9])*)@gmail\.com` at the end of the input: zero or
more groups of an optional dot followed by a lowercase alphanumeric, then the
literal suffix.  Anchored on both sides the regex is deterministic: a dot can
only start a group, `@` can only start the suffix. -/
def gmailTail : List Char → Bool
  | '@' :: rest => rest = "gmail.com".data
  | '.' :: c :: rest => isAlnumLower c && gmailTail rest
  | c :: rest => isAlnumLower c && gmailTail rest
  | [] => false

/-- Matches `(\.?[a-z0-9]){1,}@gmail\.com`: at least one group, then the
suffix. -/
def gmailTail1 : List Char → Bool
  | '.' :: c :: rest => isAlnumLower c && gmailTail rest
  | c :: rest => isAlnumLower c && gmailTail rest
  | [] => false

/-- `isValidGmail` from the source: the test
`/^[a-z0-9](\.?[a-z0-9]){1,}@gmail\.com$/.test(email)`. -/
def isValidGmail (email : String) : Bool :=
  match email.data with
  | c :: rest => isAlnumLower c && gmailTail1 rest
  | [] => false

/-- The default profile sub-record given to every new user. -/
def defaultProfile : JObj :=
  [("age", JVal.num 0), ("weight", JVal.num 0), ("height", JVal.num 0),
   ("goalWeight", JVal.num 0), ("dailyCalorieGoal", JVal.num 2000),
   ("activityLevel", JVal.str "moderate")]

/-- The `newUser` object built by `/api/register` once all validations have
passed. -/
def regNewUser (now salt : Int) (username password fullName : String) :
    User :=
  { id := now
    username := jsToLower (jsTrim username)
    password := bcryptHash salt (jsTrim password)
    fullName := jsTrim fullName
    joinedDate := now
    profile := defaultProfile }

/-- `POST /api/register`.  `username`/`password` arrive as strings (absent
maps to the empty string, which is falsy like `undefined`); `now` is the
instant read by `Date.now()` and `new Date()`, `salt` the salt produced by
`bcrypt.genSalt(10)`. -/
def register (now salt : Int) (db : Db) (username password fullName : String) :
    Except HttpError (Db × SafeUser) :=
  if username == "" || password == "" then
    .error errMissingUserPass
  else
    let normalizedUser := jsToLower (jsTrim username)
    let cleanPassword := jsTrim password
    if !isValidGmail normalizedUser then
      .error errInvalidDomain
    else if cleanPassword.length < 8 then
      .error errWeakPassword
    else if (db.users.find? (fun u => u.username == normalizedUser)).isSome then
      .error errDuplicate
    else
      let newUser : User := regNewUser now salt username password fullName
      .ok ({ db with users := db.users ++ [newUser] }, stripUser newUser)

/-- `POST /api/login`.  Reads the store but never writes it, so it returns
only the response.  Note the comparison uses the raw `password`, not its
trimmed form. -/
def login (db : Db) (username password : String) :
    Except HttpError SafeUser :=
  if username == "" || password == "" then
    .error errMissingCredentials
  else
    let normalizedUser := jsToLower (jsTrim username)
    match db.users.find? (fun u => u.username == normalizedUser) with
    | none => .error errInvalidCredentials
    | some u =>
      if bcryptCompare password u.password then
        .ok (stripUser u)
      else
        .error errInvalidCredentials

/-- The value `new Date(w.date)` compared by the workout sort, as an epoch
number (dates are modelled as their epoch values). -/
def dateOf (w : JObj) : Int :=
  match jsLookup w "date" with
  | some (.num n) => n
  | _ => 0

/-- `a` may precede `b` under the comparator
`(a, b) => new Date(b.date) - new Date(a.date)`: the comparator is
non-positive exactly when `b`'s date is at most `a`'s. -/
def dateGe (a b : JObj) : Prop := dateOf b ≤ dateOf a

instance : DecidableRel dateGe :=
  fun a b => inferInstanceAs (Decidable (dateOf b ≤ dateOf a))

instance : IsTotal JObj dateGe :=
  ⟨fun a b => Int.le_total (dateOf b) (dateOf a)⟩

instance : IsTrans JObj dateGe :=
  ⟨fun _ _ _ h1 h2 => le_trans h2 h1⟩

/-- True when the workout's `date` field is a number (the epoch-value model
of a genuine timestamp). -/
def hasNumDate (w : JObj) : Bool :=
  match jsLookup w "date" with
  | some (.num _) => true
  | _ => false

/-- `GET /api/workouts?userId=...` with the query parameter present: filter
the workouts whose `userId` strictly equals `Number(userId)` (here `uid`,
the coerced value), then sort by the comparator
`(a, b) => new Date(b.date) - new Date(a.date)`.  ECMAScript
`Array.prototype.sort` is a stable sort consistent with the comparator, so
it is modelled by the stable `List.insertionSort` for `dateGe`. -/
def listWorkouts (db : Db) (uid : Int) : List JObj :=
  List.insertionSort dateGe
    (db.workouts.filter (fun w => jsLookup w "userId" == some (.num uid)))

/-- `POST /api/workouts`: required-field truthiness check, negativity check,
user-existence check, then the record is built with defaults and appended.
The `getD 0` for the stored `userId` is unreachable: the existence check
already guarantees `Number(userId)` is a number matching some user. -/
def createWorkout (now : Int) (db : Db) (body : JObj) :
    Except HttpError (Db × JObj) :=
  let userId := jsLookup body "userId"
  let type := jsLookup body "type"
  let duration := jsLookup body "duration"
  let calories := jsLookup body "calories"
  let date := jsLookup body "date"
  let notes := jsLookup body "notes"
  let intensity := jsLookup body "intensity"
  if !truthyOpt userId || !truthyOpt type then
    .error errMissingFields
  else if numberNeg duration || numberNeg calories then
    .error errNegativeValues
  else if !(db.users.any (fun u => jsToNumberOpt userId == some u.id)) then
    .error errUserIdNotFound
  else
    match type with
    | some (.str ts) =>
      let build : String → Except HttpError (Db × JObj) := fun noteStr =>
        let newWorkout : JObj :=
          [("id", .num now),
           ("userId", .num ((jsToNumberOpt userId).getD 0)),
           ("type", .str (jsTrim ts)),
           ("duration", .num (numberOrZero duration)),
           ("calories", .num (numberOrZero calories)),
           ("date", match date with
                    | some v => if truthy v then v else .num now
                    | none => .num now),
           ("notes", .str noteStr),
           ("intensity", match intensity with
                         | some v => if truthy v then v else .str "medium"
                         | none => .str "medium"),
           ("timestamp", .num now)]
        .ok ({ db with workouts := db.workouts ++ [newWorkout] }, newWorkout)
      match notes with
      | some nv =>
        if truthy nv then
          match nv with
          | .str ns => build (jsTrim ns)
          | _ => .error errTypeError
        else build ""
      | none => build ""
    | _ => .error errTypeError

/-- `PUT /api/workouts/:id` with `pathId` the value `Number(id)` of the path
parameter: locate the workout whose `id` field strictly equals `pathId`,
trim a truthy `type`/`notes` in the body, shallowly merge the body over the
record, then force the `id` field back to `pathId`.  The `getD []` is
unreachable: `findIdx?` returns an in-bounds index. -/
def updateWorkout (db : Db) (pathId : Int) (body : JObj) :
    Except HttpError (Db × JObj) :=
  match db.workouts.findIdx? (fun w => jsLookup w "id" == some (.num pathId)) with
  | none => .error errWorkoutNotFound
  | some i =>
    match jsTrimAssign body "type" with
    | none => .error errTypeError
    | some b1 =>
      match jsTrimAssign b1 "notes" with
      | none => .error errTypeError
      | some b2 =>
        let old := db.workouts.getD i []
        let merged := jsSet (spread2 old b2) "id" (.num pathId)
        .ok ({ db with workouts := db.workouts.set i merged }, merged)

/-- `DELETE /api/workouts/:id` with `pathId` the value `Number(id)`: filter
out every workout whose `id` strictly equals `pathId`; if nothing was
removed respond 404 without writing, otherwise persist the filtered list
(204, no body). -/
def deleteWorkout (db : Db) (pathId : Int) : Except HttpError (Db × Unit) :=
  let remaining :=
    db.workouts.filter (fun w => !(jsLookup w "id" == some (.num pathId)))
  if remaining.length == db.workouts.length then
    .error errNotFound
  else
    .ok ({ db with workouts := remaining }, ())

/-- `PUT /api/profile`: `const { userId, ...stats } = req.body` splits the
body; the user whose `id` strictly equals `Number(userId)` gets
`profile = { ...profile, ...stats }`; the response is the updated user with
the password binding removed.  The `getD default` is unreachable:
`findIdx?` returns an in-bounds index. -/
def updateProfile (db : Db) (body : JObj) :
    Except HttpError (Db × SafeUser) :=
  let userId := jsLookup body "userId"
  let stats := body.filter (fun kv => kv.1 != "userId")
  match db.users.findIdx? (fun u => jsToNumberOpt userId == some u.id) with
  | none => .error errUserNotFound
  | some i =>
    let u := db.users.getD i default
    let u2 := { u with profile := spread2 u.profile stats }
    .ok ({ db with users := db.users.set i u2 }, stripUser u2)

/-! ### Concrete fixtures used to instantiate the theorems -/

/-- The empty store `{ users: [], workouts: [] }` created by `initDb`. -/
def emptyDb : Db := ⟨[], []⟩

/-- A registered user, as `/api/register` would store it. -/
def fixUser : User :=
  { id := 1
    username := "ab@gmail.com"
    password := ⟨7, "password1"⟩
    fullName := "Alice"
    joinedDate := 100
    profile := [("age", JVal.num 30), ("weight", JVal.num 70)] }

/-- A store holding just `fixUser`. -/
def fixDb : Db := ⟨[fixUser], []⟩

def wJan : JObj :=
  [("id", JVal.num 10), ("userId", JVal.num 7), ("date", JVal.num 20240101)]
def wMar : JObj :=
  [("id", JVal.num 11), ("userId", JVal.num 7), ("date", JVal.num 20240301)]
def wFeb : JObj :=
  [("id", JVal.num 12), ("userId", JVal.num 7), ("date", JVal.num 20240201)]

/-- Workouts inserted dated Jan, Mar, Feb — the listing example of the
spec. -/
def sortDb : Db := ⟨[], [wJan, wMar, wFeb]⟩

/-- A stored workout with id 1. -/
def runWorkout : JObj := [("id", JVal.num 1), ("type", JVal.str "run")]

/-- A store holding just `runWorkout`. -/
def workoutDb : Db := ⟨[], [runWorkout]⟩

/-- An update body with an untrimmed `type` and an attempt to change the
id. -/
def untrimmedBody : JObj :=
  [("type", JVal.str " yoga "), ("id", JVal.num 999)]

/-- What C6's literal reading would store for `untrimmedBody`: the raw body
merged over the record with the id forced back. -/
def claimedMerge : JObj :=
  jsSet (spread2 runWorkout untrimmedBody) "id" (JVal.num 1)

/-- `untrimmedBody` after the handler trims its truthy `type`. -/
def trimmedBody : JObj :=
  [("type", JVal.str "yoga"), ("id", JVal.num 999)]

/-- A create-workout body with a valid shape but a negative duration and a
dangling `userId`. -/
def negBody : JObj :=
  [("userId", JVal.num 1), ("type", JVal.str "run"),
   ("duration", JVal.num (-5))]

/-- The registered user produced by `register 5 9 emptyDb "ab@gmail.com"
"password1 " ""`. -/
def trailingSpaceUser : User :=
  { id := 5
    username := "ab@gmail.com"
    password := ⟨9, "password1"⟩
    fullName := ""
    joinedDate := 5
    profile :=
      [("age", JVal.num 0), ("weight", JVal.num 0), ("height", JVal.num 0),
       ("goalWeight", JVal.num 0), ("dailyCalorieGoal", JVal.num 2000),
       ("activityLevel", JVal.str "moderate")] }

/-- The store after that registration. -/
def trailingSpaceDb : Db := ⟨[trailingSpaceUser], []⟩

/-- The spec's profile-merge example body: `{userId: 1, weight: 75}`. -/
def weightBody : JObj := [("userId", JVal.num 1), ("weight", JVal.num 75)]

/-- A profile body smuggling a `password` field. -/
def sneakyBody : JObj :=
  [("userId", JVal.num 1), ("password", JVal.str "hax"),
   ("height", JVal.num 180)]

/-! ### Toolkit lemmas about the JS object operations -/

theorem jsLookup_cons (kv : String × JVal) (t : JObj) (k : String) :
    jsLookup (kv :: t) k = if kv.1 == k then some kv.2 else jsLookup t k := by
  unfold jsLookup
  rw [List.find?_cons]
  cases h : (kv.1 == k) <;> simp [h]

theorem jsLookup_append (o1 o2 : JObj) (k : String) :
    jsLookup (o1 ++ o2) k =
      if (jsLookup o1 k).isSome then jsLookup o1 k else jsLookup o2 k := by
  induction o1 with
  | nil => simp [jsLookup]
  | cons kv t ih =>
    rw [List.cons_append, jsLookup_cons, jsLookup_cons]
    cases h : (kv.1 == k) <;> simp [h, ih]

theorem jsLookup_mapOverride (a b : JObj) (k : String) :
    jsLookup (a.map (fun kv => (kv.1, (jsLookup b kv.1).getD kv.2))) k =
      (jsLookup a k).map (fun v => (jsLookup b k).getD v) := by
  induction a with
  | nil => simp [jsLookup]
  | cons kv t ih =>
    rw [List.map_cons, jsLookup_cons, jsLookup_cons]
    cases h : (kv.1 == k) with
    | true =>
      have : kv.1 = k := by simpa using h
      simp [this]
    | false => simp [h, ih]

theorem jsLookup_filterIsNone (a b : JObj) (k : String)
    (hak : jsLookup a k = none) :
    jsLookup (b.filter (fun kv => (jsLookup a kv.1).isNone)) k =
      jsLookup b k := by
  induction b with
  | nil => rfl
  | cons kv t ih =>
    rw [List.filter_cons]
    by_cases hkeep : (jsLookup a kv.1).isNone = true
    · rw [if_pos (by simpa using hkeep), jsLookup_cons, jsLookup_cons]
      cases h : (kv.1 == k) <;> simp [h, ih]
    · have hne : (kv.1 == k) = false := by
        cases h : (kv.1 == k)
        · rfl
        · have : kv.1 = k := by simpa using h
          rw [this, hak] at hkeep
          simp at hkeep
      rw [if_neg (by simpa using hkeep), jsLookup_cons, hne]
      simpa using ih

/-- Field lookup through the spread `{...a, ...b}`: `b`'s binding wins,
otherwise `a`'s survives. -/
theorem jsLookup_spread2 (a b : JObj) (k : String) :
    jsLookup (spread2 a b) k =
      if (jsLookup b k).isSome then jsLookup b k else jsLookup a k := by
  unfold spread2
  rw [jsLookup_append, jsLookup_mapOverride]
  cases hak : jsLookup a k with
  | some v =>
    cases hbk : jsLookup b k with
    | some w => simp [hbk]
    | none => simp [hbk]
  | none =>
    rw [jsLookup_filterIsNone a b k hak]
    cases hbk : jsLookup b k with
    | some w => simp [hbk]
    | none => simp [hbk]

theorem jsLookup_mapSet (o : JObj) (k : String) (v : JVal) :
    jsLookup (o.map (fun kv => if kv.1 = k then (k, v) else kv)) k =
      if (jsLookup o k).isSome then some v else none := by
  induction o with
  | nil => simp [jsLookup]
  | cons kv t ih =>
    rw [List.map_cons]
    by_cases hk : kv.1 = k
    · rw [if_pos hk, jsLookup_cons, jsLookup_cons]
      simp [hk]
    · rw [if_neg hk, jsLookup_cons, jsLookup_cons]
      have : (kv.1 == k) = false := by simp [hk]
      simp [this, ih]

theorem jsLookup_mapSet_ne (o : JObj) (k : String) (v : JVal) (k' : String)
    (h : k' ≠ k) :
    jsLookup (o.map (fun kv => if kv.1 = k then (k, v) else kv)) k' =
      jsLookup o k' := by
  induction o with
  | nil => simp
  | cons kv t ih =>
    rw [List.map_cons]
    by_cases hk : kv.1 = k
    · rw [if_pos hk, jsLookup_cons, jsLookup_cons]
      have h1 : (k == k') = false := by simp [Ne.symm h]
      have h2 : (kv.1 == k') = false := by simp [hk, Ne.symm h]
      simp [h1, h2, ih]
    · rw [if_neg hk, jsLookup_cons, jsLookup_cons]
      cases hkk : (kv.1 == k') <;> simp [ih]

/-- Assignment then lookup of the same key yields the assigned value. -/
theorem jsLookup_jsSet_self (o : JObj) (k : String) (v : JVal) :
    jsLookup (jsSet o k v) k = some v := by
  unfold jsSet
  by_cases h : (jsLookup o k).isSome = true
  · rw [if_pos h, jsLookup_mapSet, if_pos h]
  · rw [if_neg h, jsLookup_append]
    have hnone : (jsLookup o k).isSome = false := by
      cases hh : (jsLookup o k).isSome
      · rfl
      · exact absurd hh h
    rw [hnone]
    simp [jsLookup_cons]

/-- Assignment leaves every other key's binding unchanged. -/
theorem jsLookup_jsSet_ne (o : JObj) (k : String) (v : JVal) (k' : String)
    (h : k' ≠ k) :
    jsLookup (jsSet o k v) k' = jsLookup o k' := by
  unfold jsSet
  by_cases hs : (jsLookup o k).isSome = true
  · rw [if_pos hs, jsLookup_mapSet_ne o k v k' h]
  · rw [if_neg hs, jsLookup_append]
    have hlast : jsLookup [(k, v)] k' = none := by
      rw [jsLookup_cons]
      have : (k == k') = false := by simp [Ne.symm h]
      simp [this, jsLookup]
    rw [hlast]
    cases hh : jsLookup o k' <;> simp [hh]

/-- Lookup through `const { userId, ...stats } = body`-style key removal. -/
theorem jsLookup_filterKey (o : JObj) (bad k : String) :
    jsLookup (o.filter (fun kv => kv.1 != bad)) k =
      if k = bad then none else jsLookup o k := by
  induction o with
  | nil => simp [jsLookup]
  | cons kv t ih =>
    rw [List.filter_cons]
    by_cases hb : kv.1 = bad
    · have : (kv.1 != bad) = false := by simp [hb]
      rw [this]
      simp only [Bool.false_eq_true, if_false]
      rw [ih, jsLookup_cons]
      by_cases hk : k = bad
      · simp [hk]
      · have : (kv.1 == k) = false := by
          simp [hb]
          intro hc
          exact hk (hc ▸ rfl)
        simp [hk, this]
    · have : (kv.1 != bad) = true := by simp [hb]
      rw [this]
      simp only [if_true]
      rw [jsLookup_cons, jsLookup_cons]
      by_cases hk : k = bad
      · rw [ih, if_pos hk, if_pos hk]
        have h1 : (kv.1 == k) = false := by
          subst hk
          simp [hb]
        simp [h1]
      · cases hkk : (kv.1 == k) <;> simp [hkk, hk, ih]

theorem findIdx?_some_spec {α : Type} (p : α → Bool) :
    ∀ (l : List α) (i j : Nat), List.findIdx? p l i = some j →
      i ≤ j ∧ ∃ x, l[j - i]? = some x ∧ p x = true := by
  intro l
  induction l with
  | nil =>
    intro i j h
    rw [List.findIdx?_nil] at h
    exact absurd h (by simp)
  | cons x t ih =>
    intro i j h
    rw [List.findIdx?_cons] at h
    by_cases hp : p x = true
    · rw [if_pos hp] at h
      have hij : i = j := by simpa using h
      subst hij
      exact ⟨le_refl _, x, by simp, hp⟩
    · rw [if_neg hp] at h
      obtain ⟨hle, y, hy, hpy⟩ := ih (i + 1) j h
      refine ⟨by omega, y, ?_, hpy⟩
      have hji : j - i = (j - (i + 1)) + 1 := by omega
      rw [hji, List.getElem?_cons_succ]
      exact hy

/-- `findIdx?` returns an in-bounds index whose element satisfies the
predicate. -/
theorem findIdx?_spec {α : Type} (p : α → Bool) (l : List α) (i : Nat)
    (h : l.findIdx? p = some i) : ∃ x, l[i]? = some x ∧ p x = true := by
  obtain ⟨-, x, hx, hp⟩ := findIdx?_some_spec p l 0 i h
  exact ⟨x, by simpa using hx, hp⟩

theorem findIdx?_isSome_of_exists {α : Type} (p : α → Bool) :
    ∀ (l : List α) (i : Nat), (∃ x ∈ l, p x = true) →
      (List.findIdx? p l i).isSome = true := by
  intro l
  induction l with
  | nil =>
    rintro i ⟨x, hx, -⟩
    simp at hx
  | cons y t ih =>
    rintro i ⟨x, hx, hp⟩
    rw [List.findIdx?_cons]
    by_cases hy : p y = true
    · simp [hy]
    · rw [if_neg hy]
      rcases List.mem_cons.mp hx with rfl | hxt
      · exact absurd hp hy
      · exact ih (i + 1) ⟨x, hxt, hp⟩

/-- Inserting an element and then filtering for one date value is the same
as consing it on first: elements skipped by the insertion have a strictly
later date, so they never share a date with the inserted element. -/
theorem filter_date_orderedInsert (d : Int) (a : JObj) :
    ∀ l : List JObj,
      (List.orderedInsert dateGe a l).filter (fun w => dateOf w == d) =
        ((a :: l).filter (fun w => dateOf w == d)) := by
  intro l
  induction l with
  | nil => rfl
  | cons b t ih =>
    rw [List.orderedInsert]
    by_cases hr : dateGe a b
    · rw [if_pos hr]
    · rw [if_neg hr]
      have hlt : dateOf a < dateOf b := by
        have : ¬ dateOf b ≤ dateOf a := hr
        omega
      rw [List.filter_cons, List.filter_cons, List.filter_cons, ih,
        List.filter_cons]
      by_cases ha : (dateOf a == d) = true
      · have hb : (dateOf b == d) = false := by
          have had : dateOf a = d := by simpa using ha
          have : dateOf b ≠ d := by omega
          simpa using this
        simp [ha, hb]
      · have ha' : (dateOf a == d) = false := by
          cases h : (dateOf a == d)
          · rfl
          · exact absurd h ha
        cases hb : (dateOf b == d) <;> simp [ha', hb]

/-- Stability of the workout sort: sorting does not change the relative
order of workouts sharing a date. -/
theorem filter_date_insertionSort (d : Int) :
    ∀ l : List JObj,
      (List.insertionSort dateGe l).filter (fun w => dateOf w == d) =
        l.filter (fun w => dateOf w == d) := by
  intro l
  induction l with
  | nil => rfl
  | cons a t ih =>
    rw [List.insertionSort, filter_date_orderedInsert, List.filter_cons,
      List.filter_cons, ih]

/-- A string accepted by the address pattern is nonempty. -/
theorem isValidGmail_ne_empty (s : String) (h : isValidGmail s = true) :
    s ≠ "" := by
  intro he
  rw [he] at h
  exact absurd h (by decide)

/-! ### Claims -/

/-- C10: the required-field check of `POST /api/workouts` tests JS
truthiness, so it rejects with the missing-fields error not only when
`userId` or `type` is absent but whenever either is falsy — in particular a
present `userId: 0` or a present empty-string `type`. -/
theorem create_workout_rejects_falsy_required_fields (now : Int) (db : Db)
    (body : JObj)
    (h : truthyOpt (jsLookup body "userId") = false ∨
         truthyOpt (jsLookup body "type") = false ∨
         jsLookup body "userId" = some (JVal.num 0) ∨
         jsLookup body "type" = some (JVal.str "")) :
    createWorkout now db body = .error errMissingFields := by
  have hcond :
      (!truthyOpt (jsLookup body "userId") ||
        !truthyOpt (jsLookup body "type")) = true := by
    rcases h with h | h | h | h
    · simp [h]
    · simp [h]
    · simp [h, truthyOpt, truthy]
    · simp [h, truthyOpt, truthy]
  simp [createWorkout, hcond]

/-- Witness for C10: a body with `userId: 0` and one with `type: ""` are
both rejected even though the fields are present. -/
theorem create_workout_rejects_falsy_required_fields_witness :
    createWorkout 1 emptyDb
        [("userId", JVal.num 0), ("type", JVal.str "run")] =
      .error errMissingFields ∧
    createWorkout 1 emptyDb
        [("userId", JVal.num 3), ("type", JVal.str "")] =
      .error errMissingFields :=
  ⟨create_workout_rejects_falsy_required_fields 1 emptyDb _
      (Or.inr (Or.inr (Or.inl (by decide)))),
   create_workout_rejects_falsy_required_fields 1 emptyDb _
      (Or.inr (Or.inr (Or.inr (by decide))))⟩

/-- C8: deleting an id that matches no stored workout fails with the 404
`Not found` error and leaves the workout collection unchanged. -/
theorem delete_workout_missing_id (db : Db) (pathId : Int)
    (h : ∀ w ∈ db.workouts,
      (jsLookup w "id" == some (JVal.num pathId)) = false) :
    deleteWorkout db pathId = .error errNotFound ∧
      stateAfter db (deleteWorkout db pathId) = db := by
  have hfilter :
      db.workouts.filter
          (fun w => !(jsLookup w "id" == some (JVal.num pathId))) =
        db.workouts := by
    apply List.filter_eq_self.mpr
    intro w hw
    simp [h w hw]
  refine ⟨?_, ?_⟩
  · simp [deleteWorkout, hfilter]
  · simp [deleteWorkout, hfilter, stateAfter]

/-- Witness for C8: deleting id 2 from a store whose only workout has id 1
is a 404 and changes nothing. -/
theorem delete_workout_missing_id_witness :
    deleteWorkout workoutDb 2 = .error errNotFound ∧
      stateAfter workoutDb (deleteWorkout workoutDb 2) = workoutDb :=
  delete_workout_missing_id workoutDb 2 (by decide)

/-- C3: with both login fields present, the two failure cases — no stored
user has the normalized username, and a stored user is found but password
verification fails — return the very same error value
`errInvalidCredentials` (status 401, message `Invalid credentials`), so the
response does not reveal whether the username existed. -/
theorem login_failures_indistinguishable (db : Db)
    (username password : String)
    (hu : username ≠ "") (hp : password ≠ "") :
    (db.users.find? (fun u => u.username == jsToLower (jsTrim username)) = none →
      login db username password = .error errInvalidCredentials) ∧
    (∀ u, db.users.find? (fun u => u.username == jsToLower (jsTrim username)) =
        some u →
      bcryptCompare password u.password = false →
      login db username password = .error errInvalidCredentials) := by
  have hcond : (username == "" || password == "") = false := by
    simp [hu, hp]
  constructor
  · intro hfind
    simp [login, hcond, hfind]
  · intro u hfind hcmp
    simp [login, hcond, hfind, hcmp]

/-- Witness for C3: against a store holding only `fixUser`, an unknown
username and a known username with a wrong password produce the identical
error. -/
theorem login_failures_indistinguishable_witness :
    login fixDb "zz@gmail.com" "whatever1" = .error errInvalidCredentials ∧
    login fixDb "ab@gmail.com" "wrongpass" = .error errInvalidCredentials :=
  ⟨(login_failures_indistinguishable fixDb "zz@gmail.com" "whatever1"
      (by decide) (by decide)).1 (by decide),
   (login_failures_indistinguishable fixDb "ab@gmail.com" "wrongpass"
      (by decide) (by decide)).2 fixUser (by decide) (by decide)⟩

/-- C2: registering a username whose normalized (trimmed, lowercased) form
equals the stored username of an existing user — letter case and
surrounding whitespace notwithstanding — fails with the 409 duplicate error
and leaves the store unchanged, provided the password passes the other
validations.  (Stored usernames were themselves normalized and validated at
creation, whence the pattern hypothesis.) -/
theorem duplicate_registration_rejected (now salt : Int) (db : Db)
    (username password fullName : String) (u : User)
    (hu : u ∈ db.users)
    (hvalid : isValidGmail u.username = true)
    (hnorm : jsToLower (jsTrim username) = u.username)
    (hlen : 8 ≤ (jsTrim password).length) :
    register now salt db username password fullName = .error errDuplicate ∧
      stateAfter db (register now salt db username password fullName) =
        db := by
  have hue : (username == "") = false := by
    cases hx : (username == "")
    · rfl
    · exfalso
      have hx' : username = "" := by simpa using hx
      rw [hx'] at hnorm
      have h0 : jsToLower (jsTrim "") = "" := by decide
      rw [h0] at hnorm
      rw [← hnorm] at hvalid
      exact absurd hvalid (by decide)
  have hpe : (password == "") = false := by
    cases hx : (password == "")
    · rfl
    · exfalso
      have hx' : password = "" := by simpa using hx
      rw [hx'] at hlen
      have h0 : (jsTrim "").length = 0 := by decide
      omega
  have hcond : (username == "" || password == "") = false := by
    simp [hue, hpe]
  have hgmail : isValidGmail (jsToLower (jsTrim username)) = true := by
    rw [hnorm]
    exact hvalid
  have hnotlt : ¬((jsTrim password).length < 8) := by omega
  have hfind :
      (db.users.find?
          (fun u' => u'.username == jsToLower (jsTrim username))).isSome :=
    List.find?_isSome.mpr ⟨u, hu, by simp [hnorm]⟩
  refine ⟨?_, ?_⟩
  · simp [register, hcond, hgmail, hnotlt, hfind]
  · simp [register, hcond, hgmail, hnotlt, hfind, stateAfter]

/-- Witness for C2: registering `" AB@gmail.com"` — differing from the
stored `"ab@gmail.com"` in case and whitespace — with a valid password is
rejected as a duplicate and the store keeps its single user. -/
theorem duplicate_registration_rejected_witness :
    register 50 3 fixDb " AB@gmail.com" "password1" "Bob" =
      .error errDuplicate ∧
      stateAfter fixDb (register 50 3 fixDb " AB@gmail.com" "password1" "Bob") =
        fixDb :=
  duplicate_registration_rejected 50 3 fixDb " AB@gmail.com" "password1"
    "Bob" fixUser (by decide) (by decide) (by decide) (by decide)

/-- C5: listing workouts for a user returns exactly the stored workouts
whose `userId` equals the queried id (a permutation of the filtered
collection), ordered by `date` descending (sorted for `dateGe`), and the
sort is stable: workouts with equal dates keep their original insertion
order.  The hypothesis records that every stored workout carries a genuine
(numeric, epoch-modelled) date. -/
theorem list_workouts_sorted_stable (db : Db) (uid : Int)
    (_hdates : ∀ w ∈ db.workouts, hasNumDate w = true) :
    (listWorkouts db uid).Perm
        (db.workouts.filter
          (fun w => jsLookup w "userId" == some (JVal.num uid))) ∧
      (listWorkouts db uid).Sorted dateGe ∧
      ∀ d : Int,
        (listWorkouts db uid).filter (fun w => dateOf w == d) =
          (db.workouts.filter
              (fun w => jsLookup w "userId" == some (JVal.num uid))).filter
            (fun w => dateOf w == d) := by
  refine ⟨?_, ?_, ?_⟩
  · exact List.perm_insertionSort dateGe _
  · exact List.sorted_insertionSort dateGe _
  · intro d
    exact filter_date_insertionSort d _

/-- Witness for C5, the spec's example: workouts inserted dated January,
March, February come back March, February, January. -/
theorem list_workouts_sorted_stable_witness :
    (∀ w ∈ sortDb.workouts, hasNumDate w = true) ∧
      ((listWorkouts sortDb 7).Perm
          (sortDb.workouts.filter
            (fun w => jsLookup w "userId" == some (JVal.num 7))) ∧
        (listWorkouts sortDb 7).Sorted dateGe ∧
        ∀ d : Int,
          (listWorkouts sortDb 7).filter (fun w => dateOf w == d) =
            (sortDb.workouts.filter
                (fun w => jsLookup w "userId" == some (JVal.num 7))).filter
              (fun w => dateOf w == d)) ∧
      listWorkouts sortDb 7 = [wMar, wFeb, wJan] :=
  ⟨by decide, list_workouts_sorted_stable sortDb 7 (by decide), by decide⟩

/-- Counterexample to C4 as stated: with an empty user collection and a
body whose `userId` dangles but whose `duration` is negative, the handler
returns the 400 negative-values error, not `UserNotFound` — the negativity
check runs before the user-existence check. -/
theorem create_workout_negative_before_user_check :
    createWorkout 99 emptyDb negBody = .error errNegativeValues ∧
      errNegativeValues ≠ errUserIdNotFound :=
  ⟨rfl, by decide⟩

/-- C4 (amended): a create-workout request with truthy `userId` and `type`,
non-negative `Number(duration)` and `Number(calories)`, and a `userId`
matching no stored user fails with the 404 `User ID not found` error and
leaves the store unchanged.  (A negative duration or calories is rejected
earlier with the negative-values error.) -/
theorem create_workout_user_not_found (now : Int) (db : Db) (body : JObj)
    (h1 : truthyOpt (jsLookup body "userId") = true)
    (h2 : truthyOpt (jsLookup body "type") = true)
    (h3 : numberNeg (jsLookup body "duration") = false)
    (h4 : numberNeg (jsLookup body "calories") = false)
    (h5 : ∀ u ∈ db.users,
      (jsToNumberOpt (jsLookup body "userId") == some u.id) = false) :
    createWorkout now db body = .error errUserIdNotFound ∧
      stateAfter db (createWorkout now db body) = db := by
  have hany :
      db.users.any
          (fun u => jsToNumberOpt (jsLookup body "userId") == some u.id) =
        false := by
    rw [List.any_eq_false]
    intro u hu
    simp [h5 u hu]
  refine ⟨?_, ?_⟩
  · simp [createWorkout, h1, h2, h3, h4, hany]
  · simp [createWorkout, h1, h2, h3, h4, hany, stateAfter]

/-- Witness for C4 (amended): creating a workout for user 42 against the
single-user store is a 404 and changes nothing. -/
theorem create_workout_user_not_found_witness :
    createWorkout 99 fixDb
        [("userId", JVal.num 42), ("type", JVal.str "run")] =
      .error errUserIdNotFound ∧
      stateAfter fixDb
          (createWorkout 99 fixDb
            [("userId", JVal.num 42), ("type", JVal.str "run")]) =
        fixDb :=
  create_workout_user_not_found 99 fixDb _ (by decide) (by decide)
    (by decide) (by decide) (by decide)

/-- Counterexample to C6 as stated: the handler trims a truthy `type`
before merging, so for a body with `type: " yoga "` the stored record is
not the shallow merge of the raw request body (with id forced): the stored
`type` is `"yoga"` while the raw merge's is `" yoga "`. -/
theorem update_workout_raw_merge_refuted :
    updateWorkout workoutDb 1 untrimmedBody ≠
        Except.ok ({ workoutDb with workouts := [claimedMerge] },
          claimedMerge) ∧
      (updateWorkout workoutDb 1 untrimmedBody).map
          (fun r => jsLookup r.2 "type") =
        Except.ok (some (JVal.str "yoga")) ∧
      jsLookup claimedMerge "type" = some (JVal.str " yoga ") := by
  refine ⟨?_, rfl, rfl⟩
  intro h
  have h2 := congrArg
    (fun e => match e with
      | Except.ok (r : Db × JObj) => jsLookup r.2 "type"
      | Except.error _ => none) h
  exact absurd h2 (by decide)

/-- C6 (amended): updating an existing workout stores the shallow merge of
the request body — with its truthy `type` and `notes` fields trimmed —
over the existing record, except that the `id` field is forced back to the
path id, even when the body carries a different id value. -/
theorem update_workout_merge_forces_id (db : Db) (pathId : Int)
    (body : JObj) (i : Nat) (w b2 : JObj)
    (hfind : db.workouts.findIdx?
        (fun w => jsLookup w "id" == some (JVal.num pathId)) = some i)
    (hget : db.workouts[i]? = some w)
    (htrim : (jsTrimAssign body "type").bind
        (fun b1 => jsTrimAssign b1 "notes") = some b2) :
    updateWorkout db pathId body =
        .ok ({ db with workouts := db.workouts.set i (jsSet (spread2 w b2) "id" (JVal.num pathId)) },
             jsSet (spread2 w b2) "id" (JVal.num pathId)) ∧
      jsLookup (jsSet (spread2 w b2) "id" (JVal.num pathId)) "id" =
        some (JVal.num pathId) ∧
      ∀ k, k ≠ "id" →
        jsLookup (jsSet (spread2 w b2) "id" (JVal.num pathId)) k =
          jsLookup (spread2 w b2) k := by
  cases h1 : jsTrimAssign body "type" with
  | none => rw [h1] at htrim; exact absurd htrim (by simp)
  | some b1 =>
    cases h2 : jsTrimAssign b1 "notes" with
    | none =>
      rw [h1] at htrim
      simp only [Option.some_bind] at htrim
      rw [h2] at htrim
      exact absurd htrim (by simp)
    | some b2' =>
      rw [h1] at htrim
      simp only [Option.some_bind] at htrim
      rw [h2] at htrim
      have hb : b2' = b2 := by simpa using htrim
      subst hb
      have hold : db.workouts[i]?.getD [] = w := by
        rw [hget]
        rfl
      refine ⟨by simp [updateWorkout, hfind, h1, h2, hold], ?_, ?_⟩
      · exact jsLookup_jsSet_self _ _ _
      · intro k hk
        exact jsLookup_jsSet_ne _ _ _ _ hk

/-- Witness for C6 (amended): updating workout 1 with a body carrying
`id: 999` and `type: " yoga "` stores the trimmed-body merge with the id
still 1. -/
theorem update_workout_merge_forces_id_witness :
    updateWorkout workoutDb 1 untrimmedBody =
        .ok ({ workoutDb with workouts := workoutDb.workouts.set 0 (jsSet (spread2 runWorkout trimmedBody) "id" (JVal.num 1)) },
             jsSet (spread2 runWorkout trimmedBody) "id" (JVal.num 1)) ∧
      jsLookup (jsSet (spread2 runWorkout trimmedBody) "id" (JVal.num 1))
          "id" = some (JVal.num 1) ∧
      ∀ k, k ≠ "id" →
        jsLookup (jsSet (spread2 runWorkout trimmedBody) "id" (JVal.num 1))
            k = jsLookup (spread2 runWorkout trimmedBody) k :=
  update_workout_merge_forces_id workoutDb 1 untrimmedBody 0 runWorkout
    trimmedBody (by decide) (by decide) (by decide)

/-- C7: a profile update for an existing user stores and returns (password
stripped, by the `SafeUser` response type) the user whose profile is the
shallow merge of the body's non-`userId` fields over the existing profile;
pointwise, a field named in the request takes the request's value and every
other profile field keeps its previous value. -/
theorem profile_update_merges (db : Db) (body : JObj) (i : Nat) (u : User)
    (hfind : db.users.findIdx?
        (fun u => jsToNumberOpt (jsLookup body "userId") == some u.id) =
      some i)
    (hget : db.users[i]? = some u) :
    updateProfile db body =
        .ok ({ db with users := db.users.set i { u with profile := spread2 u.profile (body.filter (fun kv => kv.1 != "userId")) } },
             stripUser { u with profile := spread2 u.profile (body.filter (fun kv => kv.1 != "userId")) }) ∧
      ∀ k,
        jsLookup
            (spread2 u.profile (body.filter (fun kv => kv.1 != "userId")))
            k =
          if k = "userId" then jsLookup u.profile k
          else if (jsLookup body k).isSome then jsLookup body k
          else jsLookup u.profile k := by
  have hold : db.users[i]?.getD default = u := by
    rw [hget]
    rfl
  refine ⟨by simp [updateProfile, hfind, hold], ?_⟩
  intro k
  rw [jsLookup_spread2, jsLookup_filterKey]
  by_cases hk : k = "userId"
  · simp [hk]
  · simp only [hk, if_false]

/-- Witness for C7, the spec's merge example: profile `{age:30, weight:70}`
updated with `{userId:1, weight:75}` stores `{age:30, weight:75}`. -/
theorem profile_update_merges_witness :
    (updateProfile fixDb weightBody =
        .ok ({ fixDb with users := fixDb.users.set 0 { fixUser with profile := spread2 fixUser.profile (weightBody.filter (fun kv => kv.1 != "userId")) } },
             stripUser { fixUser with profile := spread2 fixUser.profile (weightBody.filter (fun kv => kv.1 != "userId")) }) ∧
      ∀ k,
        jsLookup
            (spread2 fixUser.profile
              (weightBody.filter (fun kv => kv.1 != "userId"))) k =
          if k = "userId" then jsLookup fixUser.profile k
          else if (jsLookup weightBody k).isSome then jsLookup weightBody k
          else jsLookup fixUser.profile k) ∧
      jsLookup
          (spread2 fixUser.profile
            (weightBody.filter (fun kv => kv.1 != "userId"))) "weight" =
        some (JVal.num 75) ∧
      jsLookup
          (spread2 fixUser.profile
            (weightBody.filter (fun kv => kv.1 != "userId"))) "age" =
        some (JVal.num 30) :=
  ⟨profile_update_merges fixDb weightBody 0 fixUser (by decide) (by decide),
   by decide, by decide⟩

/-- C9: a successful profile update only changes the targeted user's
`profile` sub-record: the user's id, username, password hash, fullName and
joinedDate are untouched, every other user and the whole workout collection
are unchanged, and every body field other than `userId` — even one named
`password` or `username` — lands inside the profile sub-record instead of
overwriting a top-level user field. -/
theorem profile_update_frame (db : Db) (body : JObj) (i : Nat) (u : User)
    (hfind : db.users.findIdx?
        (fun u => jsToNumberOpt (jsLookup body "userId") == some u.id) =
      some i)
    (hget : db.users[i]? = some u) :
    ∃ u2,
      updateProfile db body =
          .ok ({ db with users := db.users.set i u2 }, stripUser u2) ∧
        u2.id = u.id ∧ u2.username = u.username ∧
        u2.password = u.password ∧ u2.fullName = u.fullName ∧
        u2.joinedDate = u.joinedDate ∧
        (∀ j, j ≠ i → (db.users.set i u2)[j]? = db.users[j]?) ∧
        ({ db with users := db.users.set i u2 } : Db).workouts =
          db.workouts ∧
        (∀ k v, k ≠ "userId" → jsLookup body k = some v →
          jsLookup u2.profile k = some v) := by
  have hold : db.users[i]?.getD default = u := by
    rw [hget]
    rfl
  refine ⟨{ u with profile := spread2 u.profile (body.filter (fun kv => kv.1 != "userId")) },
    by simp [updateProfile, hfind, hold], rfl, rfl, rfl, rfl, rfl, ?_, rfl,
    ?_⟩
  · intro j hj
    exact List.getElem?_set_ne (Ne.symm hj)
  · intro k v hk hkv
    rw [jsLookup_spread2, jsLookup_filterKey]
    have : (if k = "userId" then none else jsLookup body k) = some v := by
      simp [hk, hkv]
    rw [this]
    simp

/-- Witness for C9: a body smuggling `password` and `height` fields merges
them into the profile while the stored password hash and username survive
unchanged. -/
theorem profile_update_frame_witness :
    (∃ u2,
      updateProfile fixDb sneakyBody =
          .ok ({ fixDb with users := fixDb.users.set 0 u2 }, stripUser u2) ∧
        u2.id = fixUser.id ∧ u2.username = fixUser.username ∧
        u2.password = fixUser.password ∧ u2.fullName = fixUser.fullName ∧
        u2.joinedDate = fixUser.joinedDate ∧
        (∀ j, j ≠ 0 → (fixDb.users.set 0 u2)[j]? = fixDb.users[j]?) ∧
        ({ fixDb with users := fixDb.users.set 0 u2 } : Db).workouts =
          fixDb.workouts ∧
        (∀ k v, k ≠ "userId" → jsLookup sneakyBody k = some v →
          jsLookup u2.profile k = some v)) ∧
      (updateProfile fixDb sneakyBody).map
          (fun r => (r.1.users[0]?.getD default).password) =
        Except.ok fixUser.password ∧
      (updateProfile fixDb sneakyBody).map
          (fun r => jsLookup (r.1.users[0]?.getD default).profile
            "password") =
        Except.ok (some (JVal.str "hax")) :=
  ⟨profile_update_frame fixDb sneakyBody 0 fixUser (by decide) (by decide),
   rfl, rfl⟩

/-- Counterexample to C1 as stated: registration hashes the trimmed
password but login verifies the raw one, so for `"password1 "` (trimmed
length 9 ≥ 8) registration succeeds yet logging in with the very same
credentials fails with `Invalid credentials`. -/
theorem register_login_trailing_space_breaks :
    register 5 9 emptyDb "ab@gmail.com" "password1 " "" =
        .ok (trailingSpaceDb, stripUser trailingSpaceUser) ∧
      8 ≤ (jsTrim "password1 ").length ∧
      login trailingSpaceDb "ab@gmail.com" "password1 " =
        .error errInvalidCredentials :=
  ⟨rfl, by decide, rfl⟩


/-- C1 (amended): for a username whose normalized form passes the Gmail
pattern and a password of trimmed length at least 8 carrying no
surrounding whitespace (it equals its own trim — registration hashes the
trimmed password while login verifies the raw one), registering against a
store with no user of the normalized username succeeds and logging in with
the same credentials succeeds, and both responses are the same created
user object — of type `SafeUser`, which has no password field. -/
theorem register_login_roundtrip (now salt : Int) (db : Db)
    (username password fullName : String)
    (hgmail : isValidGmail (jsToLower (jsTrim username)) = true)
    (hlen : 8 ≤ (jsTrim password).length)
    (htrim : jsTrim password = password)
    (hfresh : ∀ u ∈ db.users,
      (u.username == jsToLower (jsTrim username)) = false) :
    register now salt db username password fullName =
        .ok ({ db with users := db.users ++ [regNewUser now salt username password fullName] },
             stripUser (regNewUser now salt username password fullName)) ∧
      login { db with users := db.users ++ [regNewUser now salt username password fullName] }
          username password =
        .ok (stripUser (regNewUser now salt username password fullName)) := by
  have hue : (username == "") = false := by
    cases hx : (username == "")
    · rfl
    · exfalso
      have hx' : username = "" := by simpa using hx
      rw [hx'] at hgmail
      have h0 : jsToLower (jsTrim "") = "" := by decide
      rw [h0] at hgmail
      exact absurd hgmail (by decide)
  have hpe : (password == "") = false := by
    cases hx : (password == "")
    · rfl
    · exfalso
      have hx' : password = "" := by simpa using hx
      rw [hx'] at hlen
      have h0 : (jsTrim "").length = 0 := by decide
      omega
  have hcond : (username == "" || password == "") = false := by
    simp [hue, hpe]
  have hnotlt : ¬((jsTrim password).length < 8) := by omega
  have hfindnone :
      db.users.find?
          (fun u => u.username == jsToLower (jsTrim username)) = none :=
    List.find?_eq_none.mpr (fun u hu => by simp [hfresh u hu])
  constructor
  · simp [register, hcond, hgmail, hnotlt, hfindnone]
  · have hself :
        ((regNewUser now salt username password fullName).username ==
          jsToLower (jsTrim username)) = true := by
      simp [regNewUser]
    have hcmp :
        bcryptCompare password
          (regNewUser now salt username password fullName).password =
          true := by
      simp [regNewUser, bcryptCompare, bcryptHash, htrim]
    simp [login, hcond, List.find?_append, hfindnone, List.find?_cons,
      hself, hcmp]

/-- Witness for C1 (amended): registering `ab@gmail.com` with password
`password1` on the empty store and logging back in returns the same
password-free user object. -/
theorem register_login_roundtrip_witness :
    register 5 9 emptyDb "ab@gmail.com" "password1" "" =
        .ok ({ emptyDb with users := emptyDb.users ++ [regNewUser 5 9 "ab@gmail.com" "password1" ""] },
             stripUser (regNewUser 5 9 "ab@gmail.com" "password1" "")) ∧
      login { emptyDb with users := emptyDb.users ++ [regNewUser 5 9 "ab@gmail.com" "password1" ""] }
          "ab@gmail.com" "password1" =
        .ok (stripUser (regNewUser 5 9 "ab@gmail.com" "password1" "")) :=
  register_login_roundtrip 5 9 emptyDb "ab@gmail.com" "password1" ""
    (by decide) (by decide) (by decide) (by decide)
